import Mathlib

set_option maxHeartbeats 1000000

/-! Verification of the s3stat log-ingestion pipeline (`s3stat.py`).

The development embeds the pieces of `s3stat.py` that the specification
talks about:

* `goconfigContent` embeds `S3Stat._create_goconfig` (the goaccess profile).
* `PyDate.strftimeYMD`, `inputPrefixFull` and `bucketListKeys` embed the
  selection logic of `S3Stat.__init__` (`input_prefix + date.strftime`)
  together with the boto listing call `bucket.list(prefix=...)` of
  `S3Stat.download_logs`.
* `DownloadLogThread.read_log` embeds the per-object fetch/decompress step;
  the gzip codec itself is external library code and is passed in as a
  function parameter.
* The concurrent download phase (ten `DownloadLogThread` workers, one
  `ConcatThread` writer, two `Queue.Queue`s and the `queue.join()` calls of
  `S3Stat.download_logs`) is embedded as a small-step transition relation
  `DlStep` on `DlState`, with `DlReach` its reflexive-transitive closure.
* `S3Stat.run` (config creation, download, flush, `subprocess.Popen`,
  `communicate`, JSON dispatch to `process_results` / `process_error`) is
  embedded as `S3Stat.run`, which returns the emitted event trace and the
  Python-level result (`Except PyExn PyVal`).
-/

/-- Object bodies are byte sequences, modelled as lists of naturals. -/
abbrev Bytes := List Nat

/-! ## Format profile (`S3Stat._create_goconfig`, lines 223-238) -/

/-- Content of the temporary goaccess configuration file written by
`S3Stat._create_goconfig`: `color_scheme 0` followed by a `log_format`
directive chosen by the `is_cloudfront` flag. -/
def goconfigContent (is_cloudfront : Bool) : String :=
  "color_scheme 0" ++
    (if is_cloudfront then "\nlog_format CLOUDFRONT\n" else "\nlog_format AWSS3\n")

/-- Boolean substring test on strings (used to state which directives occur
in the profile file). -/
def strContainsSub (hay pat : String) : Bool :=
  (List.range (hay.data.length + 1)).any (fun i => pat.data.isPrefixOf (hay.data.drop i))

/-! ## Object selection (`S3Stat.__init__` line 220, `download_logs` line 262) -/

/-- A calendar date as held in `date_filter`. -/
structure PyDate where
  year : Nat
  month : Nat
  day : Nat
deriving DecidableEq

/-- Zero-pad a number to two digits, as `strftime` does for `%m` and `%d`. -/
def pad2 (n : Nat) : String :=
  if n < 10 then "0" ++ toString n else toString n

/-- `date_filter.strftime("%Y-%m-%d")`. -/
def PyDate.strftimeYMD (d : PyDate) : String :=
  toString d.year ++ "-" ++ pad2 d.month ++ "-" ++ pad2 d.day

/-- `self.input_prefix = input_prefix + date_filter.strftime("%Y-%m-%d")`
(line 220 of `s3stat.py`). -/
def inputPrefixFull (base : String) (d : PyDate) : String :=
  base ++ d.strftimeYMD

/-- The boto listing call `mybucket.list(prefix=p)` (line 262): of the keys
present in the bucket, exactly those whose key starts with `p` are
enumerated, in bucket order. -/
def bucketListKeys (keys : List String) (p : String) : List String :=
  keys.filter (fun k => p.data.isPrefixOf k.data)

/-! ## Per-object fetch (`DownloadLogThread.read_log`, lines 177-183) -/

/-- `DownloadLogThread.read_log`: the object body is fetched with
`get_contents_as_string`; when `is_cloudfront` is set the body is run
through the gzip decompressor before being returned.  The gzip library is
external, so the decompressor is a parameter. -/
def DownloadLogThread.read_log (gunzip : Bytes → Bytes) (is_cloudfront : Bool)
    (body : Bytes) : Bytes :=
  if is_cloudfront then gunzip body else body

/-! ## Python values and exceptions for the run/dispatch phase -/

/-- Python values flowing through `S3Stat.run`: the raw captured stdout is a
string, `json.loads` may return any JSON value, `run` returns `True`. -/
inductive PyVal
  | str (s : String)
  | int (n : Int)
  | boolV (b : Bool)
  | noneV
  | listV (xs : List PyVal)
  | dictV (fields : List (String × PyVal))

/-- Python exceptions relevant to `S3Stat.run`: the `ValueError` raised by
`json.loads`, and the `TypeError` raised by `file.write` on a non-string. -/
inductive PyExn
  | valueError
  | typeError

/-- Observable events of one `S3Stat.run` call, in program order. -/
inductive REvent
  | createConfig (content : String)
  | downloadLogs
  | flushLog
  | popen (args : List String) (captureStdout : Bool)
  | communicate
  | callResults (v : PyVal)
  | callError (e : PyExn) (data : String)

/-- External collaborators of one run: the gzip codec, the cloudfront flag,
the `json.loads` decoder, the analyzer's captured stdout, and the names of
the two temporary files. -/
structure RunEnv where
  gunzip : Bytes → Bytes
  is_cloudfront : Bool
  decode : String → Option PyVal
  analyzerOut : String
  logPath : String
  profilePath : String

/-- Python truthiness of the optional `format` argument (`if format:`):
`None` and the empty string are falsy. -/
def pyTruthy : Option String → Bool
  | none => false
  | some s => !s.isEmpty

/-- The argument vector built at lines 308-310: `goaccess -f <log> -p
<profile>`, extended by `-o <format>` when `format` is truthy. -/
def goaccessCommand (logPath profilePath : String) (format : Option String) : List String :=
  ["goaccess", "-f", logPath, "-p", profilePath] ++
    (match format with
     | none => []
     | some f => if f.isEmpty then [] else ["-o", f])

/-- Default `S3Stat.process_results` (lines 273-279): writes the payload to
the file `s3output.html`.  Python's `file.write` accepts a string and raises
`TypeError` on any other value. -/
def S3Stat.process_results (v : PyVal) : Except PyExn PyVal :=
  match v with
  | PyVal.str _ => Except.ok PyVal.noneV
  | _ => Except.error PyExn.typeError

/-- Default `S3Stat.process_error` (lines 282-291): prints the data and
re-raises the exception. -/
def S3Stat.process_error (e : PyExn) (_data : String) : Except PyExn PyVal :=
  Except.error e

/-- The result-dispatch tail of `S3Stat.run` (lines 313-322), parameterized
by the decoder and the two overridable handler methods.  Returns the handler
events it emits together with the Python result of the enclosing `run`. -/
def S3Stat.dispatch (decode : String → Option PyVal)
    (prRes : PyVal → Except PyExn PyVal) (prErr : PyExn → String → Except PyExn PyVal)
    (format : Option String) (out : String) : List REvent × Except PyExn PyVal :=
  if pyTruthy format then
    if format = some "json" then
      match decode out with
      | none => ([REvent.callError PyExn.valueError out], prErr PyExn.valueError out)
      | some v =>
          ([REvent.callResults v], (prRes v).map (fun _ => PyVal.boolV true))
    else
      ([REvent.callResults (PyVal.str out)],
        (prRes (PyVal.str out)).map (fun _ => PyVal.boolV true))
  else ([], Except.ok (PyVal.boolV true))

/-- `S3Stat.run` (lines 293-322), for runs whose download phase completed:
creates the goaccess config, downloads and flushes the combined log, starts
the analyzer subprocess (capturing stdout exactly when `format` is truthy),
blocks in `communicate`, then dispatches the captured output. -/
def S3Stat.run (env : RunEnv) (prRes : PyVal → Except PyExn PyVal)
    (prErr : PyExn → String → Except PyExn PyVal) (format : Option String) :
    List REvent × Except PyExn PyVal :=
  let d := S3Stat.dispatch env.decode prRes prErr format env.analyzerOut
  ([REvent.createConfig (goconfigContent env.is_cloudfront),
    REvent.downloadLogs,
    REvent.flushLog,
    REvent.popen (goaccessCommand env.logPath env.profilePath format) (pyTruthy format),
    REvent.communicate] ++ d.1, d.2)

/-! ## The concurrent download phase (`S3Stat.download_logs`, lines 240-271)

Ten `DownloadLogThread` workers take bucket entries from `log_file_queue`,
fetch and (for cloudfront) decompress them, and put the resulting data on
`log_string_queue`; one `ConcatThread` drains that queue and appends to the
combined log file; the main thread blocks in `log_file_queue.join()` and
then `log_string_queue.join()`.  `Queue.join` returns once the unfinished
task count (incremented by `put`, decremented by `task_done`) reaches zero.
The phase is embedded as a small-step relation over explicit states; the
enumeration loop's `put` calls are modelled as already performed in the
initial state, which is sound because the joins follow all puts. -/

/-- Failure modes of `read_log` for one object inside a worker: an
`ssl.SSLError` is caught and logged (line 194), and the worker continues;
any other exception escapes `DownloadLogThread.run` and kills the worker
thread.  In both cases `task_done` is never called for the item. -/
inductive FetchErr
  | ssl
  | other
deriving DecidableEq

/-- One enumerated bucket entry: its key, its stored body, and how fetching
it behaves (successful, or failing in one of the two ways). -/
structure LogItem where
  key : String
  body : Bytes
  fetchFails : Option FetchErr
deriving DecidableEq

/-- The data a worker produces for a successfully fetched item: the result
of `DownloadLogThread.read_log` on its body. -/
def okData (gz : Bytes → Bytes) (cf : Bool) (it : LogItem) : Bytes :=
  DownloadLogThread.read_log gz cf it.body

/-- Position of the main thread inside `download_logs`: blocked in
`log_file_queue.join()`, blocked in `log_string_queue.join()`, or returned. -/
inductive MainPhase
  | joiningIn
  | joiningOut
  | done
deriving DecidableEq

/-- `S3Stat._num_threads` (line 207). -/
def numThreads : Nat := 10

/-- A state of the download phase: the two queues' contents, the items
currently held by workers, the chunks written to the combined log so far,
the two queues' unfinished-task counters, the number of `logger.error`
calls, the number of dead worker threads, and the main thread's position. -/
structure DlState where
  inQueue : List LogItem
  inFlight : List LogItem
  outQueue : List Bytes
  chunks : List Bytes
  unfinishedIn : Nat
  unfinishedOut : Nat
  errorsLogged : Nat
  deadWorkers : Nat
  phase : MainPhase

/-- Initial download state for an enumerated item list: everything queued,
both joins pending. -/
def dlInit (items : List LogItem) : DlState :=
  { inQueue := items, inFlight := [], outQueue := [], chunks := [],
    unfinishedIn := items.length, unfinishedOut := 0, errorsLogged := 0,
    deadWorkers := 0, phase := MainPhase.joiningIn }

/-- One interleaved step of the download phase.  Workers `take` the next
item when a live worker is free, and finish it according to its fetch
behavior: on success the data is put on the string queue and `task_done`
is called (`finishOk`); on `ssl.SSLError` the error is logged and the
worker loops (`finishSsl`); on any other exception the worker dies
(`finishOther`) — in the failing cases `task_done` is never called.  The
concat thread moves the head of the string queue to the end of the
combined log (`writeChunk`).  The main thread passes each `join` only when
the corresponding unfinished counter is zero. -/
inductive DlStep (gz : Bytes → Bytes) (cf : Bool) : DlState → DlState → Prop
  | take (s : DlState) (it : LogItem) (rest : List LogItem)
      (hq : s.inQueue = it :: rest)
      (hcap : s.inFlight.length + s.deadWorkers < numThreads) :
      DlStep gz cf s { s with inQueue := rest, inFlight := s.inFlight ++ [it] }
  | finishOk (s : DlState) (l1 l2 : List LogItem) (it : LogItem)
      (hf : s.inFlight = l1 ++ it :: l2) (hok : it.fetchFails = none) :
      DlStep gz cf s { s with inFlight := l1 ++ l2, outQueue := s.outQueue ++ [okData gz cf it], unfinishedIn := s.unfinishedIn - 1, unfinishedOut := s.unfinishedOut + 1 }
  | finishSsl (s : DlState) (l1 l2 : List LogItem) (it : LogItem)
      (hf : s.inFlight = l1 ++ it :: l2) (hssl : it.fetchFails = some FetchErr.ssl) :
      DlStep gz cf s { s with inFlight := l1 ++ l2, errorsLogged := s.errorsLogged + 1 }
  | finishOther (s : DlState) (l1 l2 : List LogItem) (it : LogItem)
      (hf : s.inFlight = l1 ++ it :: l2) (hoth : it.fetchFails = some FetchErr.other) :
      DlStep gz cf s { s with inFlight := l1 ++ l2, deadWorkers := s.deadWorkers + 1 }
  | writeChunk (s : DlState) (d : Bytes) (rest : List Bytes)
      (hq : s.outQueue = d :: rest) :
      DlStep gz cf s { s with outQueue := rest, chunks := s.chunks ++ [d], unfinishedOut := s.unfinishedOut - 1 }
  | joinIn (s : DlState) (hph : s.phase = MainPhase.joiningIn) (h0 : s.unfinishedIn = 0) :
      DlStep gz cf s { s with phase := MainPhase.joiningOut }
  | joinOut (s : DlState) (hph : s.phase = MainPhase.joiningOut) (h0 : s.unfinishedOut = 0) :
      DlStep gz cf s { s with phase := MainPhase.done }

/-- Download states reachable from the initial state of an item list. -/
def DlReach (gz : Bytes → Bytes) (cf : Bool) (items : List LogItem) (s : DlState) : Prop :=
  Relation.ReflTransGen (DlStep gz cf) (dlInit items) s

/-- Invariant of the download phase: the enumerated items are partitioned
into still-queued, in-flight, finished-successfully (`dOk`, whose data in
completion order is exactly the written chunks followed by the string
queue) and finished-failing (`dFail`) items; the unfinished counters count
the respective pending tasks; once the main thread has passed a `join` the
corresponding counter is zero. -/
def DlInv (gz : Bytes → Bytes) (cf : Bool) (items : List LogItem) (s : DlState) : Prop :=
  ∃ dOk dFail : List LogItem,
    (s.inQueue ++ s.inFlight ++ dOk ++ dFail).Perm items ∧
    (∀ it ∈ dOk, it.fetchFails = none) ∧
    (∀ it ∈ dFail, it.fetchFails ≠ none) ∧
    s.chunks ++ s.outQueue = dOk.map (okData gz cf) ∧
    s.unfinishedIn = s.inQueue.length + s.inFlight.length + dFail.length ∧
    s.unfinishedOut = s.outQueue.length ∧
    (s.phase ≠ MainPhase.joiningIn → s.unfinishedIn = 0) ∧
    (s.phase = MainPhase.done → s.unfinishedOut = 0)

/-- Outcome of a whole `S3Stat.run` call over an enumerated item list:
either the download phase reaches its `done` state and the sequential rest
of `run` executes (`completes`), or no reachable download state is `done`
and the call produces no outcome at all (`hangs`). -/
inductive RunOutcome (env : RunEnv) (prRes : PyVal → Except PyExn PyVal)
    (prErr : PyExn → String → Except PyExn PyVal) (format : Option String)
    (items : List LogItem) : Option (List REvent × Except PyExn PyVal) → Prop
  | completes (s : DlState) (h : DlReach env.gunzip env.is_cloudfront items s)
      (hp : s.phase = MainPhase.done) :
      RunOutcome env prRes prErr format items (some (S3Stat.run env prRes prErr format))
  | hangs (h : ∀ s, DlReach env.gunzip env.is_cloudfront items s → s.phase ≠ MainPhase.done) :
      RunOutcome env prRes prErr format items none

/-- A concrete run environment with the identity codec and plain S3 format,
used to instantiate the download-phase theorems. -/
def plainEnv : RunEnv :=
  { gunzip := fun b => b, is_cloudfront := false, decode := fun _ => none,
    analyzerOut := "", logPath := "L", profilePath := "P" }

/-- Concrete one-item listing for instantiating the amended claim C1. -/
def c1wItems : List LogItem := [⟨"w", [5, 6], none⟩]

/-- The final download state of the one-item run over `c1wItems`. -/
def c1wState : DlState := ⟨[], [], [], [[5, 6]], 0, 0, 0, 0, MainPhase.done⟩

/-! ## Theorems -/

/-- The three supported output formats are non-empty strings, hence truthy. -/
theorem isEmpty_json : "json".isEmpty = false := rfl

/-- The three supported output formats are non-empty strings, hence truthy. -/
theorem isEmpty_html : "html".isEmpty = false := rfl

/-- The three supported output formats are non-empty strings, hence truthy. -/
theorem isEmpty_csv : "csv".isEmpty = false := rfl

/-- The download-phase invariant holds initially. -/
theorem dlInv_init (gz : Bytes → Bytes) (cf : Bool) (items : List LogItem) :
    DlInv gz cf items (dlInit items) := by
  refine ⟨[], [], ?_, ?_, ?_, ?_, ?_, ?_, ?_, ?_⟩ <;> simp [dlInit]

/-- The download-phase invariant is preserved by every step. -/
theorem dlInv_step {gz : Bytes → Bytes} {cf : Bool} {items : List LogItem}
    {s t : DlState} (hinv : DlInv gz cf items s) (hstep : DlStep gz cf s t) :
    DlInv gz cf items t := by
  obtain ⟨dOk, dFail, hperm, hok, hfail, hdata, hin, hout, hphIn, hphOut⟩ := hinv
  cases hstep with
  | take it rest hq hcap =>
      refine ⟨dOk, dFail, ?_, hok, hfail, hdata, ?_, hout, hphIn, hphOut⟩
      · rw [hq] at hperm
        refine List.Perm.trans ?_ hperm
        rw [← Multiset.coe_eq_coe]
        simp only [← Multiset.coe_add, ← Multiset.cons_coe, ← Multiset.singleton_add,
          Multiset.coe_singleton]
        abel
      · rw [hq] at hin
        simp at hin ⊢; omega
  | finishOk l1 l2 it hf hok2 =>
      refine ⟨dOk ++ [it], dFail, ?_, ?_, hfail, ?_, ?_, ?_, ?_, ?_⟩
      · rw [hf] at hperm
        refine List.Perm.trans ?_ hperm
        rw [← Multiset.coe_eq_coe]
        simp only [← Multiset.coe_add, ← Multiset.cons_coe, ← Multiset.singleton_add,
          Multiset.coe_singleton]
        abel
      · intro x hx
        rcases List.mem_append.mp hx with h | h
        · exact hok x h
        · rw [List.mem_singleton] at h
          subst h
          exact hok2
      · show s.chunks ++ (s.outQueue ++ [okData gz cf it]) = _
        rw [← List.append_assoc, hdata, List.map_append]
        rfl
      · rw [hf] at hin
        simp at hin ⊢; omega
      · show s.unfinishedOut + 1 = (s.outQueue ++ [okData gz cf it]).length
        simp [hout]
      · intro hph
        have h0 := hphIn hph
        rw [hf] at hin
        simp at hin; omega
      · intro hph
        exfalso
        have h0 := hphIn (by rw [hph]; exact fun hh => MainPhase.noConfusion hh)
        rw [hf] at hin
        simp at hin; omega
  | finishSsl l1 l2 it hf hssl =>
      refine ⟨dOk, dFail ++ [it], ?_, hok, ?_, hdata, ?_, hout, ?_, hphOut⟩
      · rw [hf] at hperm
        refine List.Perm.trans ?_ hperm
        rw [← Multiset.coe_eq_coe]
        simp only [← Multiset.coe_add, ← Multiset.cons_coe, ← Multiset.singleton_add,
          Multiset.coe_singleton]
        abel
      · intro x hx
        rcases List.mem_append.mp hx with h | h
        · exact hfail x h
        · rw [List.mem_singleton] at h
          subst h
          simp [hssl]
      · rw [hf] at hin
        simp at hin ⊢; omega
      · exact hphIn
  | finishOther l1 l2 it hf hoth =>
      refine ⟨dOk, dFail ++ [it], ?_, hok, ?_, hdata, ?_, hout, ?_, hphOut⟩
      · rw [hf] at hperm
        refine List.Perm.trans ?_ hperm
        rw [← Multiset.coe_eq_coe]
        simp only [← Multiset.coe_add, ← Multiset.cons_coe, ← Multiset.singleton_add,
          Multiset.coe_singleton]
        abel
      · intro x hx
        rcases List.mem_append.mp hx with h | h
        · exact hfail x h
        · rw [List.mem_singleton] at h
          subst h
          simp [hoth]
      · rw [hf] at hin
        simp at hin ⊢; omega
      · exact hphIn
  | writeChunk d rest hq =>
      refine ⟨dOk, dFail, hperm, hok, hfail, ?_, hin, ?_, hphIn, ?_⟩
      · show (s.chunks ++ [d]) ++ rest = _
        rw [hq] at hdata
        rw [← hdata, List.append_assoc]
        rfl
      · rw [hq] at hout
        simp only [List.length_cons] at hout
        show s.unfinishedOut - 1 = rest.length
        omega
      · intro hph
        have h0 := hphOut hph
        show s.unfinishedOut - 1 = 0
        omega
  | joinIn hph h0 =>
      exact ⟨dOk, dFail, hperm, hok, hfail, hdata, hin, hout, fun _ => h0,
        fun hh => MainPhase.noConfusion hh⟩
  | joinOut hph h0 =>
      refine ⟨dOk, dFail, hperm, hok, hfail, hdata, hin, hout, ?_, fun _ => h0⟩
      intro _
      exact hphIn (by rw [hph]; exact fun hh => MainPhase.noConfusion hh)

/-- Every reachable download state satisfies the invariant. -/
theorem dlReach_inv {gz : Bytes → Bytes} {cf : Bool} {items : List LogItem}
    {s : DlState} (h : DlReach gz cf items s) : DlInv gz cf items s := by
  induction h with
  | refl => exact dlInv_init gz cf items
  | tail hab hbc ih => exact dlInv_step ih hbc

/-- In a reachable `done` state both queues are drained and the written
chunks are exactly the data of the enumerated items, in some completion
order; moreover no item can have failed. -/
theorem dlReach_done {gz : Bytes → Bytes} {cf : Bool} {items : List LogItem}
    {s : DlState} (h : DlReach gz cf items s) (hp : s.phase = MainPhase.done) :
    ∃ dOk : List LogItem, dOk.Perm items ∧ s.chunks = dOk.map (okData gz cf) ∧
      ∀ it ∈ items, it.fetchFails = none := by
  obtain ⟨dOk, dFail, hperm, hok, hfail, hdata, hin, hout, hphIn, hphOut⟩ := dlReach_inv h
  have hIn0 : s.unfinishedIn = 0 :=
    hphIn (by rw [hp]; exact fun hh => MainPhase.noConfusion hh)
  have hOut0 : s.unfinishedOut = 0 := hphOut hp
  have hq : s.inQueue = [] := List.length_eq_zero.mp (by omega)
  have hfl : s.inFlight = [] := List.length_eq_zero.mp (by omega)
  have hdf : dFail = [] := List.length_eq_zero.mp (by omega)
  have ho : s.outQueue = [] := List.length_eq_zero.mp (by omega)
  rw [hq, hfl, hdf] at hperm
  simp only [List.nil_append, List.append_nil] at hperm
  rw [ho, List.append_nil] at hdata
  refine ⟨dOk, hperm, hdata, ?_⟩
  intro it hit
  have : it ∈ dOk := hperm.mem_iff.mpr hit
  exact hok it this

/-- Every chunk ever written to the combined log is the `read_log` image of
one of the enumerated items (one that fetches successfully). -/
theorem dlReach_chunk {gz : Bytes → Bytes} {cf : Bool} {items : List LogItem}
    {s : DlState} (h : DlReach gz cf items s) {c : Bytes} (hc : c ∈ s.chunks) :
    ∃ it, it ∈ items ∧ it.fetchFails = none ∧ c = okData gz cf it := by
  obtain ⟨dOk, dFail, hperm, hok, hfail, hdata, _⟩ := dlReach_inv h
  have hmem : c ∈ dOk.map (okData gz cf) := by
    rw [← hdata]
    exact List.mem_append.mpr (Or.inl hc)
  obtain ⟨it, hit, hq⟩ := List.mem_map.mp hmem
  refine ⟨it, ?_, hok it hit, hq.symm⟩
  refine hperm.mem_iff.mp ?_
  simp [hit]

/-- If any enumerated item fails to fetch, `task_done` is never called for
it, so the unfinished count of `log_file_queue` never reaches zero and the
main thread remains blocked in the first `join` in every reachable state. -/
theorem dlReach_fail_phase {gz : Bytes → Bytes} {cf : Bool} {items : List LogItem}
    {s : DlState} (h : DlReach gz cf items s)
    (hbad : ∃ it ∈ items, it.fetchFails ≠ none) : s.phase = MainPhase.joiningIn := by
  induction h with
  | refl => rfl
  | @tail b c hab hbc ih =>
      obtain ⟨it0, hmem, hne⟩ := hbad
      cases hbc with
      | take it rest hq hcap => exact ih
      | finishOk l1 l2 it hf hok => exact ih
      | finishSsl l1 l2 it hf hssl => exact ih
      | finishOther l1 l2 it hf hoth => exact ih
      | writeChunk d rest hq => exact ih
      | joinIn hph h0 =>
          exfalso
          obtain ⟨dOk, dFail, hperm, hok, hfail, hdata, hin, _⟩ := dlReach_inv hab
          have h1 : it0 ∈ b.inQueue ++ b.inFlight ++ dOk ++ dFail := hperm.mem_iff.mpr hmem
          rcases List.mem_append.mp h1 with h2 | h2
          · rcases List.mem_append.mp h2 with h3 | h3
            · rcases List.mem_append.mp h3 with h4 | h4
              · have := List.length_pos_of_mem h4
                omega
              · have := List.length_pos_of_mem h4
                omega
            · exact hne (hok it0 h3)
          · have := List.length_pos_of_mem h2
            omega
      | joinOut hph h0 =>
          rw [ih] at hph
          exact MainPhase.noConfusion hph

/-- With no worker-killing failures pending, the workers and the concat
thread can process an entire queue sequentially: each item is taken and
either finished successfully (its data immediately written through) or
logged as an `ssl.SSLError`. -/
theorem dlSeq (gz : Bytes → Bytes) (cf : Bool) :
    ∀ pending : List LogItem,
      (∀ it ∈ pending, it.fetchFails ≠ some FetchErr.other) →
      ∀ ch : List Bytes, ∀ ui uo el : Nat, ∀ ph : MainPhase,
      ∃ t : DlState,
        Relation.ReflTransGen (DlStep gz cf)
          ⟨pending, [], [], ch, ui, uo, el, 0, ph⟩ t ∧
        t.chunks = ch ++ (pending.filter (fun it => it.fetchFails.isNone)).map (okData gz cf) ∧
        t.errorsLogged =
          el + (pending.filter (fun it => it.fetchFails == some FetchErr.ssl)).length := by
  intro pending
  induction pending with
  | nil =>
      intro _ ch ui uo el ph
      exact ⟨⟨[], [], [], ch, ui, uo, el, 0, ph⟩, Relation.ReflTransGen.refl,
        by simp, by simp⟩
  | cons it rest ih =>
      intro hno ch ui uo el ph
      cases hff : it.fetchFails with
      | none =>
          obtain ⟨t, hrtg, hch, herr⟩ :=
            ih (fun x hx => hno x (List.mem_cons_of_mem _ hx))
              (ch ++ [okData gz cf it]) (ui - 1) (uo + 1 - 1) el ph
          refine ⟨t, ?_, ?_, ?_⟩
          · refine Relation.ReflTransGen.head (DlStep.take _ it rest rfl (by simp [numThreads])) ?_
            refine Relation.ReflTransGen.head (DlStep.finishOk _ [] [] it rfl hff) ?_
            exact Relation.ReflTransGen.head
              (DlStep.writeChunk _ (okData gz cf it) [] rfl) hrtg
          · rw [hch, List.filter_cons]
            simp [hff]
          · rw [herr, List.filter_cons]
            simp [hff]
      | some e =>
          cases e with
          | ssl =>
              obtain ⟨t, hrtg, hch, herr⟩ :=
                ih (fun x hx => hno x (List.mem_cons_of_mem _ hx)) ch ui uo (el + 1) ph
              refine ⟨t, ?_, ?_, ?_⟩
              · refine Relation.ReflTransGen.head (DlStep.take _ it rest rfl (by simp [numThreads])) ?_
                exact Relation.ReflTransGen.head (DlStep.finishSsl _ [] [] it rfl hff) hrtg
              · rw [hch, List.filter_cons]
                simp [hff]
              · rw [herr, List.filter_cons]
                simp only [hff]
                simp
                omega
          | other => exact absurd hff (hno it (List.mem_cons_self it rest))

/-- Claim C3, counterexample: the serialized profile file contains no
`date_format` directive for either value of the edge-cache flag, so it does
not contain all three directives the claim requires. -/
theorem s3stat_C3_counterexample :
    strContainsSub (goconfigContent true) "date_format" = false ∧
    strContainsSub (goconfigContent false) "date_format" = false := by
  constructor <;> decide

/-- Claim C3, amended: the profile is a pure function of the single
edge-cache flag and the serialized file contains a `color_scheme` directive
and a `log_format` directive, but no `date_format` directive. -/
theorem s3stat_C3_amended (b : Bool) :
    strContainsSub (goconfigContent b) "color_scheme" = true ∧
    strContainsSub (goconfigContent b) "log_format" = true ∧
    strContainsSub (goconfigContent b) "date_format" = false := by
  cases b <;> exact ⟨by decide, by decide, by decide⟩

/-- Claim C5, counterexample: the key `logs/x2020-01-01` begins with the
configured prefix `logs/` and contains the run date `2020-01-01`, yet the
listing call (scoped to `prefix ++ date`) does not select it, so its content
never reaches the combined stream. -/
theorem s3stat_C5_counterexample :
    "logs/".data.isPrefixOf "logs/x2020-01-01".data = true ∧
    strContainsSub "logs/x2020-01-01" (PyDate.strftimeYMD ⟨2020, 1, 1⟩) = true ∧
    bucketListKeys ["logs/x2020-01-01"] (inputPrefixFull "logs/" ⟨2020, 1, 1⟩) = [] := by
  refine ⟨by decide, by decide, by decide⟩

/-- Claim C5, amended: selection is exact with respect to the extended
prefix `prefix ++ YYYY-MM-DD`: an enumerated key is selected as many times
as it occurs in the bucket listing when it begins with `prefix ++ date`
(hence exactly once when enumerated once), and never otherwise.  Beginning
with the prefix and merely containing the date elsewhere is not enough. -/
theorem s3stat_C5_amended (keys : List String) (base : String) (d : PyDate) (k : String) :
    List.count k (bucketListKeys keys (inputPrefixFull base d)) =
      if (inputPrefixFull base d).data.isPrefixOf k.data then List.count k keys else 0 := by
  induction keys with
  | nil => simp [bucketListKeys]
  | cons a as ih =>
      unfold bucketListKeys at ih ⊢
      rw [List.filter_cons]
      by_cases hp : (inputPrefixFull base d).data.isPrefixOf a.data
      · by_cases hak : a = k
        · subst hak
          simp [List.count_cons, ih, hp]
        · simp [hp, hak, List.count_cons, ih]
      · by_cases hak : a = k
        · subst hak
          simp [List.count_cons, ih, hp]
        · simp [hp, hak, List.count_cons, ih]

/-- Claim C4: with format `json`, a decodable stdout is handed to the result
handler as the decoded value; an undecodable stdout is handed to the error
handler together with the decode exception and the raw bytes, and the error
handler's return value is the run's return value. -/
theorem s3stat_C4 (env : RunEnv) (prRes : PyVal → Except PyExn PyVal)
    (prErr : PyExn → String → Except PyExn PyVal) :
    (∀ v, env.decode env.analyzerOut = some v →
      REvent.callResults v ∈ (S3Stat.run env prRes prErr (some "json")).1) ∧
    (env.decode env.analyzerOut = none →
      REvent.callError PyExn.valueError env.analyzerOut ∈
          (S3Stat.run env prRes prErr (some "json")).1 ∧
        (S3Stat.run env prRes prErr (some "json")).2 =
          prErr PyExn.valueError env.analyzerOut) := by
  constructor
  · intro v hv
    simp [S3Stat.run, S3Stat.dispatch, pyTruthy, isEmpty_json, hv]
  · intro hv
    refine ⟨?_, ?_⟩ <;> simp [S3Stat.run, S3Stat.dispatch, pyTruthy, isEmpty_json, hv]

/-- Claim C4, witness: a decoder behaving like `json.loads` on the stdout
`\x7b"hits": 42\x7d` reaches the result handler with the decoded object, and
on the stdout `not-json` reaches the error handler with the raw bytes, whose
(default) return value — re-raising — becomes the run result. -/
theorem s3stat_C4_witness :
    (REvent.callResults (PyVal.dictV [("hits", PyVal.int 42)]) ∈
      (S3Stat.run
        { gunzip := id, is_cloudfront := false,
          decode := fun s => if s = "\x7b\"hits\": 42\x7d"
            then some (PyVal.dictV [("hits", PyVal.int 42)]) else none,
          analyzerOut := "\x7b\"hits\": 42\x7d", logPath := "L", profilePath := "P" }
        S3Stat.process_results S3Stat.process_error (some "json")).1) ∧
    (REvent.callError PyExn.valueError "not-json" ∈
      (S3Stat.run
        { gunzip := id, is_cloudfront := false, decode := fun _ => none,
          analyzerOut := "not-json", logPath := "L", profilePath := "P" }
        S3Stat.process_results S3Stat.process_error (some "json")).1 ∧
      (S3Stat.run
        { gunzip := id, is_cloudfront := false, decode := fun _ => none,
          analyzerOut := "not-json", logPath := "L", profilePath := "P" }
        S3Stat.process_results S3Stat.process_error (some "json")).2 =
        S3Stat.process_error PyExn.valueError "not-json") := by
  constructor
  · exact (s3stat_C4 _ S3Stat.process_results S3Stat.process_error).1
      (PyVal.dictV [("hits", PyVal.int 42)]) (by simp)
  · exact (s3stat_C4 _ S3Stat.process_results S3Stat.process_error).2 rfl

/-- Claim C7: the analyzer is launched as `goaccess -f <log> -p <profile>`,
with `-o <format>` appended exactly when a format is given; stdout is
captured exactly when a format is given; the `communicate` (blocking wait)
event immediately follows the launch and precedes any handler dispatch; and
the combined log's flush precedes the launch.  All later events are handler
calls only. -/
theorem s3stat_C7 (env : RunEnv) (prRes : PyVal → Except PyExn PyVal)
    (prErr : PyExn → String → Except PyExn PyVal) (format : Option String)
    (hfmt : format = none ∨ format = some "json" ∨ format = some "html" ∨
      format = some "csv") :
    ∃ tail,
      (S3Stat.run env prRes prErr format).1 =
        [REvent.createConfig (goconfigContent env.is_cloudfront),
         REvent.downloadLogs,
         REvent.flushLog,
         REvent.popen
           (["goaccess", "-f", env.logPath, "-p", env.profilePath] ++
             (match format with | none => [] | some f => ["-o", f]))
           format.isSome,
         REvent.communicate] ++ tail ∧
      ∀ e ∈ tail, (∃ v, e = REvent.callResults v) ∨ ∃ ex d, e = REvent.callError ex d := by
  rcases hfmt with h | h | h | h <;> subst h
  · exact ⟨[], by simp [S3Stat.run, S3Stat.dispatch, goaccessCommand, pyTruthy]⟩
  · refine ⟨(S3Stat.dispatch env.decode prRes prErr (some "json") env.analyzerOut).1, ?_, ?_⟩
    · simp [S3Stat.run, goaccessCommand, pyTruthy, isEmpty_json]
    · intro e he
      cases hd : env.decode env.analyzerOut with
      | none =>
          simp [S3Stat.dispatch, pyTruthy, isEmpty_json, hd] at he
          exact Or.inr ⟨_, _, he⟩
      | some v =>
          simp [S3Stat.dispatch, pyTruthy, isEmpty_json, hd] at he
          exact Or.inl ⟨_, he⟩
  · refine ⟨(S3Stat.dispatch env.decode prRes prErr (some "html") env.analyzerOut).1, ?_, ?_⟩
    · simp [S3Stat.run, goaccessCommand, pyTruthy, isEmpty_html]
    · intro e he
      simp [S3Stat.dispatch, pyTruthy, isEmpty_html] at he
      exact Or.inl ⟨_, he⟩
  · refine ⟨(S3Stat.dispatch env.decode prRes prErr (some "csv") env.analyzerOut).1, ?_, ?_⟩
    · simp [S3Stat.run, goaccessCommand, pyTruthy, isEmpty_csv]
    · intro e he
      simp [S3Stat.dispatch, pyTruthy, isEmpty_csv] at he
      exact Or.inl ⟨_, he⟩

/-- Claim C7, witness: the event trace of a concrete `json`-format run has
the required invocation shape. -/
theorem s3stat_C7_witness :
    ∃ tail,
      (S3Stat.run
        { gunzip := id, is_cloudfront := false, decode := fun _ => none,
          analyzerOut := "o", logPath := "L", profilePath := "P" }
        S3Stat.process_results S3Stat.process_error (some "json")).1 =
        [REvent.createConfig (goconfigContent false),
         REvent.downloadLogs,
         REvent.flushLog,
         REvent.popen ["goaccess", "-f", "L", "-p", "P", "-o", "json"] true,
         REvent.communicate] ++ tail ∧
      ∀ e ∈ tail, (∃ v, e = REvent.callResults v) ∨ ∃ ex d, e = REvent.callError ex d :=
  s3stat_C7
    { gunzip := id, is_cloudfront := false, decode := fun _ => none,
      analyzerOut := "o", logPath := "L", profilePath := "P" }
    S3Stat.process_results S3Stat.process_error (some "json") (Or.inr (Or.inl rfl))

/-- Claim C8: a run invoked with `format = None` never calls the result
handler or the error handler, and returns `True`. -/
theorem s3stat_C8 (env : RunEnv) (prRes : PyVal → Except PyExn PyVal)
    (prErr : PyExn → String → Except PyExn PyVal) :
    (S3Stat.run env prRes prErr none).2 = Except.ok (PyVal.boolV true) ∧
    ∀ e ∈ (S3Stat.run env prRes prErr none).1,
      (∀ v, e ≠ REvent.callResults v) ∧ ∀ ex d, e ≠ REvent.callError ex d := by
  constructor
  · rfl
  · intro e he
    simp [S3Stat.run, S3Stat.dispatch, pyTruthy] at he
    rcases he with h | h | h | h | h <;> subst h <;>
      exact ⟨fun v => by simp, fun ex d => by simp⟩

/-- Claim C10: with format `json` and the default handlers, a stdout that
decodes to a non-string JSON value makes the default `process_results` fail
with a `TypeError` from `file.write`, and that exception is the run's
outcome; it is not routed through `process_error`. -/
theorem s3stat_C10 (env : RunEnv) (v : PyVal)
    (hdec : env.decode env.analyzerOut = some v) (hnostr : ∀ s, v ≠ PyVal.str s) :
    (S3Stat.run env S3Stat.process_results S3Stat.process_error (some "json")).2 =
      Except.error PyExn.typeError ∧
    ∀ ex d, REvent.callError ex d ∉
      (S3Stat.run env S3Stat.process_results S3Stat.process_error (some "json")).1 := by
  constructor
  · simp only [S3Stat.run, S3Stat.dispatch, pyTruthy, isEmpty_json, Bool.not_false,
      if_true, hdec]
    cases v with
    | str s => exact absurd rfl (hnostr s)
    | int n => rfl
    | boolV b => rfl
    | noneV => rfl
    | listV xs => rfl
    | dictV fs => rfl
  · intro ex d hmem
    simp [S3Stat.run, S3Stat.dispatch, pyTruthy, isEmpty_json, hdec] at hmem

/-- Claim C10, witness: with the default handlers and a stdout decoding to
the JSON object `\x7b"hits": 42\x7d`, the run ends with the `TypeError` and
never calls the error handler. -/
theorem s3stat_C10_witness :
    (S3Stat.run
      { gunzip := id, is_cloudfront := false,
        decode := fun _ => some (PyVal.dictV [("hits", PyVal.int 42)]),
        analyzerOut := "\x7b\"hits\": 42\x7d", logPath := "L", profilePath := "P" }
      S3Stat.process_results S3Stat.process_error (some "json")).2 =
      Except.error PyExn.typeError ∧
    ∀ ex d, REvent.callError ex d ∉
      (S3Stat.run
        { gunzip := id, is_cloudfront := false,
          decode := fun _ => some (PyVal.dictV [("hits", PyVal.int 42)]),
          analyzerOut := "\x7b\"hits\": 42\x7d", logPath := "L", profilePath := "P" }
        S3Stat.process_results S3Stat.process_error (some "json")).1 :=
  s3stat_C10 _ (PyVal.dictV [("hits", PyVal.int 42)]) rfl (fun s => by simp)

/-- Claim C1, counterexample: over two enumerated objects with bodies `[1]`
and `[2]`, there is a completed run of the download phase whose combined
stream is `[2, 1]` — the second worker finished first — which differs from
the enumeration-order concatenation `[1, 2]`. -/
theorem s3stat_C1_counterexample :
    ∃ s : DlState,
      DlReach (fun b => b) false [⟨"a", [1], none⟩, ⟨"b", [2], none⟩] s ∧
      s.phase = MainPhase.done ∧
      s.chunks.flatten ≠
        (([⟨"a", [1], none⟩, ⟨"b", [2], none⟩] : List LogItem).map
          (okData (fun b => b) false)).flatten := by
  refine ⟨⟨[], [], [], [[2], [1]], 0, 0, 0, 0, MainPhase.done⟩, ?_, rfl, by decide⟩
  refine Relation.ReflTransGen.head
    (DlStep.take _ ⟨"a", [1], none⟩ [⟨"b", [2], none⟩] rfl (by decide)) ?_
  refine Relation.ReflTransGen.head
    (DlStep.take _ ⟨"b", [2], none⟩ [] rfl (by decide)) ?_
  refine Relation.ReflTransGen.head
    (DlStep.finishOk _ [⟨"a", [1], none⟩] [] ⟨"b", [2], none⟩ rfl rfl) ?_
  refine Relation.ReflTransGen.head (DlStep.writeChunk _ [2] [] rfl) ?_
  refine Relation.ReflTransGen.head
    (DlStep.finishOk _ [] [] ⟨"a", [1], none⟩ rfl rfl) ?_
  refine Relation.ReflTransGen.head (DlStep.writeChunk _ [1] [] rfl) ?_
  refine Relation.ReflTransGen.head (DlStep.joinIn _ rfl rfl) ?_
  exact Relation.ReflTransGen.single (DlStep.joinOut _ rfl rfl)

/-- Claim C1, amended: whenever the download phase completes, the combined
stream is the concatenation of the enumerated objects' decompressed bytes
in completion (arrival) order — some permutation of the enumeration order,
not necessarily the enumeration order itself — its total length equals the
sum of the decompressed lengths, and no object is missing; moreover
completion entails that no fetch failed. -/
theorem s3stat_C1_amended (gz : Bytes → Bytes) (cf : Bool) (items : List LogItem)
    (s : DlState) (h : DlReach gz cf items s) (hp : s.phase = MainPhase.done) :
    ∃ ordered : List LogItem, ordered.Perm items ∧
      s.chunks = ordered.map (okData gz cf) ∧
      s.chunks.flatten.length = (items.map (fun it => (okData gz cf it).length)).sum ∧
      ∀ it ∈ items, it.fetchFails = none := by
  obtain ⟨dOk, hperm, hchunks, hall⟩ := dlReach_done h hp
  refine ⟨dOk, hperm, hchunks, ?_, hall⟩
  rw [hchunks, List.length_flatten, List.map_map]
  exact (hperm.map _).sum_eq

/-- Claim C1, amended, witness: a completed one-item run satisfies the
arrival-order concatenation property. -/
theorem s3stat_C1_amended_witness :
    DlReach (fun b => b) false c1wItems c1wState ∧
    ∃ ordered : List LogItem, ordered.Perm c1wItems ∧
      c1wState.chunks = ordered.map (okData (fun b => b) false) ∧
      c1wState.chunks.flatten.length =
        (c1wItems.map (fun it => (okData (fun b => b) false it).length)).sum ∧
      ∀ it ∈ c1wItems, it.fetchFails = none := by
  have hreach : DlReach (fun b => b) false c1wItems c1wState := by
    refine Relation.ReflTransGen.head
      (DlStep.take _ ⟨"w", [5, 6], none⟩ [] rfl (by decide)) ?_
    refine Relation.ReflTransGen.head
      (DlStep.finishOk _ [] [] ⟨"w", [5, 6], none⟩ rfl rfl) ?_
    refine Relation.ReflTransGen.head (DlStep.writeChunk _ [5, 6] [] rfl) ?_
    refine Relation.ReflTransGen.head (DlStep.joinIn _ rfl rfl) ?_
    exact Relation.ReflTransGen.single (DlStep.joinOut _ rfl rfl)
  exact ⟨hreach, s3stat_C1_amended (fun b => b) false c1wItems c1wState hreach rfl⟩

/-- Claim C2, counterexample: over a single object whose fetch raises
`ssl.SSLError`, the run produces no outcome at all — in particular no
exception ever propagates to the caller of `run`: the worker swallows the
error, `task_done` is never called, and the main thread stays blocked in
`log_file_queue.join()` forever, so the claimed abort never happens. -/
theorem s3stat_C2_counterexample :
    ¬ ∃ r, RunOutcome plainEnv S3Stat.process_results S3Stat.process_error
      (some "json") [⟨"k", [1], some FetchErr.ssl⟩] (some r) := by
  rintro ⟨r, hro⟩
  cases hro with
  | completes s h hp =>
      have h2 := dlReach_fail_phase h ⟨⟨"k", [1], some FetchErr.ssl⟩, by simp, by simp⟩
      rw [h2] at hp
      exact MainPhase.noConfusion hp

/-- Claim C2, amended: when fetching any enumerated object fails, the
analyzer subprocess is indeed never invoked — but not because the exception
propagates: the run never aborts and never completes; every reachable
download state still has the main thread blocked in the first queue join,
so the whole `run` call hangs and yields no outcome. -/
theorem s3stat_C2_amended (env : RunEnv) (prRes : PyVal → Except PyExn PyVal)
    (prErr : PyExn → String → Except PyExn PyVal) (format : Option String)
    (items : List LogItem) (hbad : ∃ it ∈ items, it.fetchFails ≠ none) :
    (∀ r, RunOutcome env prRes prErr format items r → r = none) ∧
    ∀ s, DlReach env.gunzip env.is_cloudfront items s → s.phase = MainPhase.joiningIn := by
  constructor
  · intro r hro
    cases hro with
    | completes s h hp =>
        have h2 := dlReach_fail_phase h hbad
        rw [h2] at hp
        exact MainPhase.noConfusion hp
    | hangs h => rfl
  · intro s h
    exact dlReach_fail_phase h hbad

/-- Claim C2, amended, witness: a one-item run whose fetch fails with a
non-SSL error hangs and never reaches the analyzer. -/
theorem s3stat_C2_amended_witness :
    (∃ it ∈ ([⟨"k", [9], some FetchErr.other⟩] : List LogItem), it.fetchFails ≠ none) ∧
    (∀ r, RunOutcome plainEnv S3Stat.process_results S3Stat.process_error
        (some "json") [⟨"k", [9], some FetchErr.other⟩] r → r = none) ∧
    ∀ s, DlReach plainEnv.gunzip plainEnv.is_cloudfront
        [⟨"k", [9], some FetchErr.other⟩] s → s.phase = MainPhase.joiningIn :=
  ⟨by decide, s3stat_C2_amended plainEnv S3Stat.process_results S3Stat.process_error
    (some "json") [⟨"k", [9], some FetchErr.other⟩] (by decide)⟩

/-- Claim C6: with the cloudfront flag set, `read_log` decompresses the
fetched body before it is handed onward, so fetching a compressed plaintext
round-trips to the plaintext; with the flag unset the body passes through
unchanged; and every chunk ever appended to the combined stream is exactly
the `read_log` image of some enumerated object's body. -/
theorem s3stat_C6 (gunzip gzipc : Bytes → Bytes) (hround : ∀ x, gunzip (gzipc x) = x)
    (plaintext other : Bytes) :
    DownloadLogThread.read_log gunzip true (gzipc plaintext) = plaintext ∧
    DownloadLogThread.read_log gunzip false other = other ∧
    ∀ cf : Bool, ∀ items : List LogItem, ∀ s : DlState,
      DlReach gunzip cf items s → ∀ c ∈ s.chunks,
        ∃ it ∈ items, c = DownloadLogThread.read_log gunzip cf it.body := by
  refine ⟨by simp [DownloadLogThread.read_log, hround], rfl, ?_⟩
  intro cf items s h c hc
  obtain ⟨it, hit, _, hdata⟩ := dlReach_chunk h hc
  exact ⟨it, hit, hdata⟩

/-- Claim C6, witness: a concrete invertible codec (prepend a zero byte /
drop the first byte) round-trips through `read_log` with the flag set, and
a concrete body passes through unchanged with the flag unset. -/
theorem s3stat_C6_witness :
    (∀ x : Bytes, List.tail ((fun y => (0 : Nat) :: y) x) = x) ∧
    (DownloadLogThread.read_log List.tail true ((fun y => (0 : Nat) :: y) [4, 5]) = [4, 5] ∧
     DownloadLogThread.read_log List.tail false [7] = [7] ∧
     ∀ cf : Bool, ∀ items : List LogItem, ∀ s : DlState,
       DlReach List.tail cf items s → ∀ c ∈ s.chunks,
         ∃ it ∈ items, c = DownloadLogThread.read_log List.tail cf it.body) :=
  ⟨fun _ => rfl, s3stat_C6 List.tail (fun y => (0 : Nat) :: y) (fun _ => rfl) [4, 5] [7]⟩

/-- Claim C9: when one object's fetch raises `ssl.SSLError` (and no other
object kills a worker), the error is only logged: nothing propagates to the
caller of `run` (which in fact never returns), the failed object's content
never appears in the combined stream, and the workers keep processing — an
execution exists that processes every remaining object and logs the error. -/
theorem s3stat_C9 (env : RunEnv) (prRes : PyVal → Except PyExn PyVal)
    (prErr : PyExn → String → Except PyExn PyVal) (format : Option String)
    (items : List LogItem) (bad : LogItem) (hmem : bad ∈ items)
    (hssl : bad.fetchFails = some FetchErr.ssl)
    (hnoOther : ∀ it ∈ items, it.fetchFails ≠ some FetchErr.other)
    (hdistinct : ∀ it ∈ items, it.fetchFails = none →
      okData env.gunzip env.is_cloudfront it ≠ okData env.gunzip env.is_cloudfront bad) :
    (∀ r, RunOutcome env prRes prErr format items r → r = none) ∧
    (∀ s, DlReach env.gunzip env.is_cloudfront items s →
      okData env.gunzip env.is_cloudfront bad ∉ s.chunks) ∧
    ∃ s, DlReach env.gunzip env.is_cloudfront items s ∧
      s.chunks = (items.filter (fun it => it.fetchFails.isNone)).map
        (okData env.gunzip env.is_cloudfront) ∧
      1 ≤ s.errorsLogged := by
  refine ⟨?_, ?_, ?_⟩
  · intro r hro
    cases hro with
    | completes s h hp =>
        have h2 := dlReach_fail_phase h ⟨bad, hmem, by simp [hssl]⟩
        rw [h2] at hp
        exact MainPhase.noConfusion hp
    | hangs h => rfl
  · intro s h hc
    obtain ⟨it, hit, hitok, hdat⟩ := dlReach_chunk h hc
    exact absurd hdat.symm (hdistinct it hit hitok)
  · obtain ⟨t, hrtg, hch, herr⟩ :=
      dlSeq env.gunzip env.is_cloudfront items hnoOther [] items.length 0 0
        MainPhase.joiningIn
    refine ⟨t, hrtg, by simpa using hch, ?_⟩
    have hb : bad ∈ items.filter (fun it => it.fetchFails == some FetchErr.ssl) :=
      List.mem_filter.mpr ⟨hmem, by simp [hssl]⟩
    have hpos := List.length_pos_of_mem hb
    omega

/-- Claim C9, witness: a three-object listing whose middle object fails
with `ssl.SSLError` — the bad object's data `[2]` never appears, the other
two objects' data can be fully processed, and the error is logged. -/
theorem s3stat_C9_witness :
    (∀ r, RunOutcome plainEnv S3Stat.process_results S3Stat.process_error (some "json")
        [⟨"a", [1], none⟩, ⟨"b", [2], some FetchErr.ssl⟩, ⟨"c", [3], none⟩] r →
      r = none) ∧
    (∀ s, DlReach plainEnv.gunzip plainEnv.is_cloudfront
        [⟨"a", [1], none⟩, ⟨"b", [2], some FetchErr.ssl⟩, ⟨"c", [3], none⟩] s →
      okData plainEnv.gunzip plainEnv.is_cloudfront ⟨"b", [2], some FetchErr.ssl⟩ ∉
        s.chunks) ∧
    ∃ s, DlReach plainEnv.gunzip plainEnv.is_cloudfront
        [⟨"a", [1], none⟩, ⟨"b", [2], some FetchErr.ssl⟩, ⟨"c", [3], none⟩] s ∧
      s.chunks = (([⟨"a", [1], none⟩, ⟨"b", [2], some FetchErr.ssl⟩,
          ⟨"c", [3], none⟩] : List LogItem).filter
            (fun it => it.fetchFails.isNone)).map
          (okData plainEnv.gunzip plainEnv.is_cloudfront) ∧
      1 ≤ s.errorsLogged :=
  s3stat_C9 plainEnv S3Stat.process_results S3Stat.process_error (some "json")
    [⟨"a", [1], none⟩, ⟨"b", [2], some FetchErr.ssl⟩, ⟨"c", [3], none⟩]
    ⟨"b", [2], some FetchErr.ssl⟩ (by decide) rfl (by decide) (by decide)
